import Mathlib

/-!
Verification development for the Gruyere Template Language (gtl.py).

Shallow embedding conventions:
- Python strings are embedded as List Char (abbreviated LC below).
- Python values flowing through the template engine are the inductive Value
  (None, bool, int, str, dict with string keys in insertion order, list).
- Python exceptions escaping a call are modelled by the Except Err monad;
  an .error result means the corresponding exception escapes to the caller.
- Side effects (diagnostic logging via the _Log helper, and opening/closing
  of the include-file handle) are modelled as an ordered trace of Event
  values paired with the result.
- The mutually recursive block-expansion functions take an explicit fuel
  parameter; fuel exhaustion is the distinguished error Err.outOfFuel,
  an artifact of the embedding (the Python code recurses without bound,
  for example on cyclically including resource files).  With enough fuel
  the embedding computes exactly what the Python code computes.
- The resource loader (gruyere._Open plus read, specified only as an
  interface) is modelled as a parameter fs : LC -> Option LC mapping the
  translated path to the file contents, none meaning IOError on open.
  os.sep is modelled as the slash character (POSIX host).
- The external HTML sanitizer sanitize.SanitizeHtml (specified only as an
  interface) is modelled as a parameter sz : LC -> LC.
-/

/-- Characters-as-list embedding of Python strings. -/
abbrev LC := List Char

/-- Python exceptions that the translated code can raise. outOfFuel is the
embedding artifact for exhausted recursion fuel. -/
inductive Err where
  | keyError
  | indexError
  | attributeError
  | nameError
  | valueError
  | outOfFuel
deriving DecidableEq, Repr

/-- Observable side effects of expansion: a diagnostic line written by _Log,
and the opening/closing of an include-file handle. -/
inductive Event where
  | log (msg : LC)
  | opened (fname : LC)
  | closed (fname : LC)
deriving DecidableEq, Repr

/-- Result of an effectful computation: the value or escaping exception,
paired with the trace of events that happened before the return/raise. -/
abbrev EResult (α : Type) := Except Err α × List Event

/-- Return a pure value with an empty trace. -/
def pureE {α : Type} (a : α) : EResult α := (.ok a, [])

/-- Lift an exception-only computation into EResult. -/
def exceptE {α : Type} (x : Except Err α) : EResult α := (x, [])

/-- Sequencing of effectful computations: an escaping exception aborts the
continuation but keeps the events already emitted. -/
def seqE {α β : Type} (x : EResult α) (f : α → EResult β) : EResult β :=
  match x with
  | (.error e, w) => (.error e, w)
  | (.ok a, w) => ((f a).1, w ++ (f a).2)

/-- Python values manipulated by the template engine. -/
inductive Value where
  | null
  | bool (b : Bool)
  | num (n : Int)
  | str (s : LC)
  | map (pairs : List (LC × Value))
  | seq (elems : List Value)

/-- The specials argument is always a dict of special values. -/
abbrev SpecialsT := List (LC × Value)

/-- Resource loader interface (gruyere._Open followed by read). -/
abbrev FS := LC → Option LC

/-- External sanitizer interface (sanitize.SanitizeHtml). -/
abbrev SZ := LC → LC

/-- First index at which needle occurs in hay (Python str.find returning -1
becomes none). -/
def strFind (needle : LC) (hay : LC) : Option Nat :=
  if needle.isPrefixOf hay then some 0
  else
    match hay with
    | [] => none
    | _ :: t => (strFind needle t).map (· + 1)

/-- Python hay.find(needle, start): first occurrence at a position at or
after start, as an absolute index. -/
def strFindFrom (needle : LC) (hay : LC) (start : Nat) : Option Nat :=
  (strFind needle (hay.drop start)).map (· + start)

/-- Python slice l[i:j]. -/
def sliceL (l : LC) (i j : Nat) : LC := (l.take j).drop i

/-- Python s.split(sep) for a single-character separator: keeps empty
segments, and the empty string yields one empty segment. -/
def splitOnChar (sep : Char) : LC → List LC
  | [] => [[]]
  | c :: t =>
    let r := splitOnChar sep t
    if c = sep then [] :: r
    else
      match r with
      | [] => [[c]]
      | h :: t2 => (c :: h) :: t2

/-- Python s.split(sep, 1) preceded by the find(sep) >= 0 test: splits at
the first occurrence of sep, or none when sep does not occur. -/
def splitFirst (sep : Char) : LC → Option (LC × LC)
  | [] => none
  | c :: t =>
    if c = sep then some ([], t)
    else
      match splitFirst sep t with
      | none => none
      | some (a, b) => some (c :: a, b)

/-- Inclusive code-point ranges of the Unicode 15.0 decimal digits
(category Nd). Every range holds the digits zero to nine in order, so the
digit value of a character is its offset from the range start. Python
int() accepts exactly these characters (the Unicode version in force
depends on the interpreter build; this table is the modelling boundary). -/
def ndDigitRanges : List (Nat × Nat) :=
  [(0x30, 0x39), (0x660, 0x669), (0x6F0, 0x6F9), (0x7C0, 0x7C9),
   (0x966, 0x96F), (0x9E6, 0x9EF), (0xA66, 0xA6F), (0xAE6, 0xAEF),
   (0xB66, 0xB6F), (0xBE6, 0xBEF), (0xC66, 0xC6F), (0xCE6, 0xCEF),
   (0xD66, 0xD6F), (0xDE6, 0xDEF), (0xE50, 0xE59), (0xED0, 0xED9),
   (0xF20, 0xF29), (0x1040, 0x1049), (0x1090, 0x1099), (0x17E0, 0x17E9),
   (0x1810, 0x1819), (0x1946, 0x194F), (0x19D0, 0x19D9), (0x1A80, 0x1A89),
   (0x1A90, 0x1A99), (0x1B50, 0x1B59), (0x1BB0, 0x1BB9), (0x1C40, 0x1C49),
   (0x1C50, 0x1C59), (0xA620, 0xA629), (0xA8D0, 0xA8D9), (0xA900, 0xA909),
   (0xA9D0, 0xA9D9), (0xA9F0, 0xA9F9), (0xAA50, 0xAA59), (0xABF0, 0xABF9),
   (0xFF10, 0xFF19), (0x104A0, 0x104A9), (0x10D30, 0x10D39),
   (0x11066, 0x1106F), (0x110F0, 0x110F9), (0x11136, 0x1113F),
   (0x111D0, 0x111D9), (0x112F0, 0x112F9), (0x11450, 0x11459),
   (0x114D0, 0x114D9), (0x11650, 0x11659), (0x116C0, 0x116C9),
   (0x11730, 0x11739), (0x118E0, 0x118E9), (0x11950, 0x11959),
   (0x11C50, 0x11C59), (0x11D50, 0x11D59), (0x11DA0, 0x11DA9),
   (0x11F50, 0x11F59), (0x16A60, 0x16A69), (0x16AC0, 0x16AC9),
   (0x16B50, 0x16B59), (0x1D7CE, 0x1D7D7), (0x1D7D8, 0x1D7E1),
   (0x1D7E2, 0x1D7EB), (0x1D7EC, 0x1D7F5), (0x1D7F6, 0x1D7FF),
   (0x1E140, 0x1E149), (0x1E2F0, 0x1E2F9), (0x1E4F0, 0x1E4F9),
   (0x1E950, 0x1E959), (0x1FBF0, 0x1FBF9)]

/-- Decimal value of a Unicode decimal-digit (category Nd) character,
none for every other character. -/
def decDigitVal (c : Char) : Option Nat :=
  match ndDigitRanges.find? (fun r => decide (r.1 ≤ c.toNat) && decide (c.toNat ≤ r.2)) with
  | some r => some (c.toNat - r.1)
  | none => none

/-- Inclusive code-point ranges of the Unicode 15.0 characters whose
numeric type is Digit but whose category is not Nd: digit-valued
characters such as superscript two, subscripts and circled digits, which
str.isdigit() accepts but int() rejects with ValueError. -/
def otherDigitRanges : List (Nat × Nat) :=
  [(0xB2, 0xB3), (0xB9, 0xB9), (0x1369, 0x1371), (0x19DA, 0x19DA),
   (0x2070, 0x2070), (0x2074, 0x2079), (0x2080, 0x2089), (0x2460, 0x2468),
   (0x2474, 0x247C), (0x2488, 0x2490), (0x24EA, 0x24EA), (0x24F5, 0x24FD),
   (0x24FF, 0x24FF), (0x2776, 0x277E), (0x2780, 0x2788), (0x278A, 0x2792),
   (0x10A40, 0x10A43), (0x1F100, 0x1F10A)]

/-- Whether a character is a non-decimal digit (numeric type Digit,
category not Nd). -/
def pyOtherDigitChar (c : Char) : Bool :=
  (otherDigitRanges.find? (fun r => decide (r.1 ≤ c.toNat) && decide (c.toNat ≤ r.2))).isSome

/-- Python str.isdigit() on one character: a decimal digit, or one of the
non-decimal digit characters (superscripts and the like). -/
def pyIsDigitChar (c : Char) : Bool := (decDigitVal c).isSome || pyOtherDigitChar c

/-- Python s.isdigit(): nonempty and every character is a digit,
including the non-decimal digit characters that int() will not accept. -/
def isDigits (l : LC) : Bool :=
  match l with
  | [] => false
  | _ => l.all pyIsDigitChar

/-- Python int(s) for a nonempty string: the decimal value when every
character is a decimal (Nd) digit, none - meaning ValueError - when some
character is not, for example a superscript two even though isdigit
accepts it. -/
def intOfDecimal (l : LC) : Option Nat :=
  match l with
  | [] => none
  | _ =>
    l.foldl (fun acc c =>
      match acc, decDigitVal c with
      | some a, some d => some (a * 10 + d)
      | _, _ => none) (some 0)

/-- Decimal rendering of a natural number, Python str(i). -/
def natToString (n : Nat) : LC := Nat.toDigits 10 n

/-- Decimal rendering of an integer, Python str(n). -/
def intToString (n : Int) : LC :=
  if n < 0 then '-' :: natToString n.natAbs else natToString n.natAbs

/-- Left brace character (written via its code point). -/
def lbraceC : Char := Char.ofNat 123

/-- Right brace character (written via its code point). -/
def rbraceC : Char := Char.ofNat 125

/-- Single quote character. -/
def sqC : Char := Char.ofNat 39

/-- Double quote character. -/
def dqC : Char := Char.ofNat 34

/-- Backslash character. -/
def bsC : Char := Char.ofNat 92

/-- Concatenate a list of strings. -/
def listFlat : List LC → LC
  | [] => []
  | h :: t => h ++ listFlat t

/-- One character of a Python repr of a string, escaping the backslash and
the chosen quote character. (Control-character escapes of CPython repr are
not modelled; no template data in this development contains them.) -/
def quoteReprChar (q : Char) (c : Char) : LC :=
  if c = bsC then [bsC, bsC]
  else if c = q then [bsC, q]
  else [c]

/-- Python repr of a string: quoted with single quotes, or double quotes
when the content contains a single quote but no double quote. -/
def quoteRepr (s : LC) : LC :=
  let q := if s.contains sqC && !(s.contains dqC) then dqC else sqC
  q :: (listFlat (s.map (quoteReprChar q)) ++ [q])

mutual

/-- Python repr of a Value (used by str on containers, whose elements are
rendered with repr). -/
def pyRepr : Value → LC
  | .null => ("None").toList
  | .bool true => ("True").toList
  | .bool false => ("False").toList
  | .num n => intToString n
  | .str s => quoteRepr s
  | .map pairs => lbraceC :: (pyReprPairs pairs ++ [rbraceC])
  | .seq elems => '[' :: (pyReprElems elems ++ [']'])

/-- Comma-separated key: value renderings of dict items, in order. -/
def pyReprPairs : List (LC × Value) → LC
  | [] => []
  | (k, v) :: [] => quoteRepr k ++ ':' :: ' ' :: pyRepr v
  | (k, v) :: kv2 :: rest =>
    (quoteRepr k ++ ':' :: ' ' :: pyRepr v) ++ ',' :: ' ' :: pyReprPairs (kv2 :: rest)

/-- Comma-separated repr renderings of list elements, in order. -/
def pyReprElems : List Value → LC
  | [] => []
  | v :: [] => pyRepr v
  | v :: v2 :: rest => pyRepr v ++ ',' :: ' ' :: pyReprElems (v2 :: rest)

end

/-- Python str of a Value: strings render as their own content, every other
value as its repr (containers render their elements with repr, as CPython
does). -/
def pyStr : Value → LC
  | .str s => s
  | v => pyRepr v

/-- Python truthiness of a Value: None, False, zero, empty string, empty
dict and empty list are falsy. -/
def truthy : Value → Bool
  | .null => false
  | .bool b => b
  | .num n => n != 0
  | .str s => !s.isEmpty
  | .map pairs => !pairs.isEmpty
  | .seq elems => !elems.isEmpty

/-- One character of html.escape (quote=True). -/
def htmlEscapeChar (c : Char) : LC :=
  if c = '&' then ("&amp;").toList
  else if c = '<' then ("&lt;").toList
  else if c = '>' then ("&gt;").toList
  else if c = dqC then ("&quot;").toList
  else if c = sqC then ("&#x27;").toList
  else [c]

/-- Python html.escape with quote=True. -/
def htmlEscape (s : LC) : LC := listFlat (s.map htmlEscapeChar)

/-- BLOCK_OPEN marker. -/
def openB : LC := ("[[").toList

/-- BLOCK_CLOSE marker. -/
def closeB : LC := ("]]").toList

/-- END_BLOCK_OPEN marker. -/
def endOpenB : LC := ("[[/").toList

/-- VAR_OPEN marker (two left braces). -/
def openV : LC := [lbraceC, lbraceC]

/-- VAR_CLOSE marker (two right braces). -/
def closeV : LC := [rbraceC, rbraceC]

/-- The exact close tag expected for an open tag: END_BLOCK_OPEN + tag +
BLOCK_CLOSE. -/
def endTagOf (tag : LC) : LC := endOpenB ++ tag ++ closeB

/-- The special variable name _key. -/
def kKey : LC := ("_key").toList

/-- The special variable name _this. -/
def kThis : LC := ("_this").toList

/-- The dereferenced-_this path segment. -/
def kStarThis : LC := ("*_this").toList

/-- The _params key of the specials dict. -/
def kParams : LC := ("_params").toList

/-- INCLUDE_TAG. -/
def kInclude : LC := ("include").toList

/-- IF_TAG. -/
def kIf : LC := ("if").toList

/-- FOR_TAG. -/
def kFor : LC := ("for").toList

/-- The text escaper name. -/
def kText : LC := ("text").toList

/-- The html escaper name. -/
def kHtml : LC := ("html").toList

/-- The pprint escaper name. -/
def kPprint : LC := ("pprint").toList

/-- Diagnostic for an unreadable include target. -/
def missingMsg (filename : LC) : LC := ("Error: missing filename: ").toList ++ filename

/-- Diagnostic for a block tag of unknown type. -/
def invalidBlockMsg (tag : LC) : LC := ("Error: Invalid block: ").toList ++ tag

/-- Diagnostic for a for block over a non-iterable value. -/
def invalidTypeMsg (tag : LC) : LC := ("Error: Invalid type: ").toList ++ tag

/-- The translated include path: os.sep + filename.replace(slash, os.sep),
with os.sep modelled as slash. -/
def fnameOf (filename : LC) : LC := '/' :: filename

/-- _FindTag from gtl.py: first open marker, then first close marker at or
after it; the tag is the text strictly between the markers, and the returned
positions are the start of the tag and the position just past the close
marker. -/
def _FindTag (template : LC) (openMarker closeMarker : LC) : Option (LC × Nat × Nat) :=
  match strFind openMarker template with
  | none => none
  | some openPos =>
    match strFindFrom closeMarker template openPos with
    | none => none
    | some closePos =>
      if openPos > closePos then none
      else some (sliceL template (openPos + openMarker.length) closePos,
                 openPos,
                 closePos + closeMarker.length)

/-- _GetValue from gtl.py: a present key of a dict, or an in-range numeric
index of a sequence (Python strings count as sequences, one character
each), otherwise the default. On a sequence, when index.isdigit() holds
the code evaluates int(index); for an isdigit-true index containing a
non-decimal digit character (such as superscript two) int() raises
ValueError, which escapes. Everything else degrades to the default. -/
def _GetValue (collection : Value) (index : LC) (default : Value) : Except Err Value :=
  match collection with
  | .map pairs =>
    match pairs.lookup index with
    | some v => .ok v
    | none => .ok default
  | .seq elems =>
    if isDigits index then
      match intOfDecimal index with
      | none => .error .valueError
      | some nv => if nv < elems.length then .ok (elems.getD nv default) else .ok default
    else .ok default
  | .str s =>
    if isDigits index then
      match intOfDecimal index with
      | none => .error .valueError
      | some nv => if nv < s.length then .ok (.str [s.getD nv ' ']) else .ok default
    else .ok default
  | _ => .ok default

/-- The star-indirection step of _ExpandValue: v = _GetValue(specials[str-
params-key], key) followed by the Sequence flattening v = v[0]. Raw dict
access raises KeyError when _params is missing; indexing an empty sequence
(including the empty-string default produced for an absent parameter)
raises IndexError. -/
def starLookup (specials : SpecialsT) (key : LC) : Except Err Value :=
  match specials.lookup kParams with
  | none => .error .keyError
  | some ps =>
    match _GetValue ps key (.str []) with
    | .error e => .error e
    | .ok (.seq []) => .error .indexError
    | .ok (.seq (x :: _)) => .ok x
    | .ok (.str []) => .error .indexError
    | .ok (.str (c :: _)) => .ok (.str [c])
    | .ok v => .ok v

/-- The for v in var.split(dot) loop of _ExpandValue. The loop variable is
a string segment unless it equals *_this, in which case it is replaced by
params; calling startswith on a non-string params raises AttributeError. -/
def _ExpandValueLoop (specials : SpecialsT) (params default : Value) :
    List LC → Value → Except Err Value
  | [], value => .ok value
  | seg :: rest, value =>
    if seg = kStarThis then
      match params with
      | .str s =>
        if s.head? = some '*' then
          match starLookup specials (s.drop 1) with
          | .error e => .error e
          | .ok v2 =>
            match _GetValue value (pyStr v2) default with
            | .error e => .error e
            | .ok value2 => _ExpandValueLoop specials params default rest value2
        else
          match _GetValue value s default with
          | .error e => .error e
          | .ok value2 => _ExpandValueLoop specials params default rest value2
      | _ => .error .attributeError
    else if seg.head? = some '*' then
      match starLookup specials (seg.drop 1) with
      | .error e => .error e
      | .ok v2 =>
        match _GetValue value (pyStr v2) default with
        | .error e => .error e
        | .ok value2 => _ExpandValueLoop specials params default rest value2
    else
      match _GetValue value seg default with
      | .error e => .error e
      | .ok value2 => _ExpandValueLoop specials params default rest value2

/-- _ExpandValue from gtl.py: the whole-path special cases _key and _this,
then the root choice (specials for paths starting with an underscore,
params otherwise), then the segment loop. -/
def _ExpandValue (var : LC) (specials : SpecialsT) (params : Value) (name : LC)
    (default : Value) : Except Err Value :=
  if var = kKey then .ok (.str name)
  else if var = kThis then .ok params
  else
    let root := if var.head? = some '_' then Value.map specials else params
    _ExpandValueLoop specials params default (splitOnChar '.' var) root

/-- Python: if value is None, replace with the empty string. -/
def noneToEmpty (v : Value) : Value :=
  match v with
  | .null => .str []
  | w => w

/-- The tail of _ExpandVariable after comment/negation/escaper parsing:
resolve the path, apply negation, dispatch on the escaper name, apply the
None-to-empty rule. The pprint branch evaluates cgi.escape, but the cgi
module is never imported by gtl.py (only html is), so it raises NameError. -/
def _ExpandVariableFinish (sz : SZ) (inverted : Bool) (escName : Option LC)
    (varPath : LC) (specials : SpecialsT) (params : Value) (name : LC) :
    Except Err Value :=
  match _ExpandValue varPath specials params name (.str []) with
  | .error e => .error e
  | .ok v0 =>
    let v1 := if inverted then Value.bool (!truthy v0) else v0
    match escName with
    | some esc =>
      if esc = kText then .ok (noneToEmpty (.str (htmlEscape (pyStr v1))))
      else if esc = kHtml then .ok (noneToEmpty (.str (sz (pyStr v1))))
      else if esc = kPprint then .error .nameError
      else .ok (noneToEmpty v1)
    | none => .ok (noneToEmpty v1)

/-- The escaper split of _ExpandVariable: split the expression at the first
colon when one occurs. -/
def _ExpandVariableCore (sz : SZ) (inverted : Bool) (var1 : LC)
    (specials : SpecialsT) (params : Value) (name : LC) : Except Err Value :=
  match splitFirst ':' var1 with
  | some (varPath, escName) =>
    _ExpandVariableFinish sz inverted (some escName) varPath specials params name
  | none => _ExpandVariableFinish sz inverted none var1 specials params name

/-- _ExpandVariable from gtl.py: comment expressions return the empty
string, a leading bang negates, then the escaper split and resolution. -/
def _ExpandVariable (sz : SZ) (var : LC) (specials : SpecialsT) (params : Value)
    (name : LC) : Except Err Value :=
  if var.head? = some '#' then .ok (.str [])
  else if var.head? = some '!' then
    _ExpandVariableCore sz true (var.drop 1) specials params name
  else _ExpandVariableCore sz false var specials params name

/-- _ExpandVariables from gtl.py: repeatedly find the next variable tag,
expand it, stringify, and continue on the rest; the loop is written as
recursion on the rest of the template. Fuel only limits the number of
iterations (the Python loop always terminates since the template shrinks;
any fuel at least the template length behaves identically). -/
def _ExpandVariables (sz : SZ) : Nat → LC → SpecialsT → Value → LC → Except Err LC
  | 0, _, _, _, _ => .error .outOfFuel
  | fuel+1, rest, specials, params, name =>
    match _FindTag rest openV closeV with
    | none => .ok rest
    | some (tag, beforeTag, afterTag) =>
      match _ExpandVariable sz tag specials params name with
      | .error e => .error e
      | .ok v =>
        match _ExpandVariables sz fuel (List.drop afterTag rest) specials params name with
        | .error e => .error e
        | .ok restOut => .ok (List.take beforeTag rest ++ pyStr v ++ restOut)

mutual

/-- ExpandTemplate from gtl.py: expand all blocks, then expand all
variables over the result. -/
def ExpandTemplate (fs : FS) (sz : SZ) : Nat → LC → SpecialsT → Value → LC → EResult LC
  | 0, _, _, _, _ => (.error .outOfFuel, [])
  | fuel+1, template, specials, params, name =>
    seqE (_ExpandBlocks fs sz fuel template specials params name)
      (fun t1 => exceptE (_ExpandVariables sz fuel t1 specials params name))

/-- _ExpandBlocks from gtl.py: find the next block open tag; if none, or if
the matching close tag built from the open tag text does not occur after
it, emit the remaining text verbatim and stop; otherwise expand the block
body and continue after the close tag. -/
def _ExpandBlocks (fs : FS) (sz : SZ) : Nat → LC → SpecialsT → Value → LC → EResult LC
  | 0, _, _, _, _ => (.error .outOfFuel, [])
  | fuel+1, rest, specials, params, name =>
    match _FindTag rest openB closeB with
    | none => (.ok rest, [])
    | some (tag, beforeTag, afterTag) =>
      match strFindFrom (endTagOf tag) rest afterTag with
      | none => (.ok rest, [])
      | some beforeEnd =>
        seqE (_ExpandBlock fs sz fuel tag (sliceL rest afterTag beforeEnd) specials params name)
          (fun expanded =>
            seqE (_ExpandBlocks fs sz fuel (List.drop (beforeEnd + (endTagOf tag).length) rest) specials params name)
              (fun restOut => pureE (List.take beforeTag rest ++ expanded ++ restOut)))

/-- _ExpandBlock from gtl.py: split the tag at the first colon (unpacking
the split of a colon-free tag raises ValueError) and dispatch on the tag
type; unknown types log a diagnostic and contribute the empty string. -/
def _ExpandBlock (fs : FS) (sz : SZ) : Nat → LC → LC → SpecialsT → Value → LC → EResult LC
  | 0, _, _, _, _, _ => (.error .outOfFuel, [])
  | fuel+1, tag, template, specials, params, name =>
    match splitFirst ':' tag with
    | none => (.error .valueError, [])
    | some (tagType, blockVar) =>
      if tagType = kInclude then
        _ExpandInclude fs sz fuel blockVar template specials params name
      else if tagType = kIf then
        match _ExpandVariable sz blockVar specials params name with
        | .error e => (.error e, [])
        | .ok v =>
          if truthy v then ExpandTemplate fs sz fuel template specials params name
          else (.ok [], [])
      else if tagType = kFor then
        match _ExpandVariable sz blockVar specials params name with
        | .error e => (.error e, [])
        | .ok v => _ExpandFor fs sz fuel tag template specials v
      else (.ok [], [.log (invalidBlockMsg tag)])

/-- _ExpandInclude from gtl.py: read the resource and expand its contents,
or on a read failure log a diagnostic and expand the block body instead;
the handle, when opened, is closed before the recursive expansion (the
try/finally of the source). The first parameter of the source (the tag) is
unused there and omitted here. -/
def _ExpandInclude (fs : FS) (sz : SZ) : Nat → LC → LC → SpecialsT → Value → LC → EResult LC
  | 0, _, _, _, _, _ => (.error .outOfFuel, [])
  | fuel+1, filename, template, specials, params, name =>
    match fs (fnameOf filename) with
    | some contents =>
      let r := ExpandTemplate fs sz fuel contents specials params name
      (r.1, .opened (fnameOf filename) :: .closed (fnameOf filename) :: r.2)
    | none =>
      let r := ExpandTemplate fs sz fuel template specials params name
      (r.1, .log (missingMsg filename) :: r.2)

/-- _ExpandFor from gtl.py: iterate a dict by key in order, or a sequence
by index (Python strings count as sequences of one-character strings);
any other value logs a diagnostic and contributes the empty string. -/
def _ExpandFor (fs : FS) (sz : SZ) : Nat → LC → LC → SpecialsT → Value → EResult LC
  | 0, _, _, _, _ => (.error .outOfFuel, [])
  | fuel+1, tag, template, specials, blockData =>
    match blockData with
    | .map pairs => _ExpandForKeys fs sz fuel template specials pairs (pairs.map Prod.fst)
    | .seq elems => _ExpandForSeq fs sz fuel template specials elems 0
    | .str s => _ExpandForSeq fs sz fuel template specials (s.map (fun c => Value.str [c])) 0
    | _ => (.ok [], [.log (invalidTypeMsg tag)])

/-- The dict branch of _ExpandFor: for each key in order, expand the body
with params bound to the dict entry for that key (raw dict access) and
name bound to the key, concatenating the results. -/
def _ExpandForKeys (fs : FS) (sz : SZ) : Nat → LC → SpecialsT → List (LC × Value) → List LC → EResult LC
  | 0, _, _, _, _ => (.error .outOfFuel, [])
  | fuel+1, template, specials, pairs, keys =>
    match keys with
    | [] => (.ok [], [])
    | k :: ks =>
      match pairs.lookup k with
      | none => (.error .keyError, [])
      | some v =>
        seqE (ExpandTemplate fs sz fuel template specials v k)
          (fun s1 =>
            seqE (_ExpandForKeys fs sz fuel template specials pairs ks)
              (fun s2 => pureE (s1 ++ s2)))

/-- The sequence branch of _ExpandFor: for each index in order, expand the
body with params bound to the element and name bound to the decimal index,
concatenating the results. -/
def _ExpandForSeq (fs : FS) (sz : SZ) : Nat → LC → SpecialsT → List Value → Nat → EResult LC
  | 0, _, _, _, _ => (.error .outOfFuel, [])
  | fuel+1, template, specials, elems, i =>
    match elems with
    | [] => (.ok [], [])
    | x :: xs =>
      seqE (ExpandTemplate fs sz fuel template specials x (natToString i))
        (fun s1 =>
          seqE (_ExpandForSeq fs sz fuel template specials xs (i + 1))
            (fun s2 => pureE (s1 ++ s2)))

end

/-- The loader that fails on every path, used for concrete instances. -/
def fsNone : FS := fun _ => none

/-- The variable expression with a leading negation bang stripped, as
_ExpandVariable strips it. -/
def varStripBang (var : LC) : LC :=
  if var.head? = some '!' then var.drop 1 else var

/-- The path part of a variable expression: everything before the first
colon of the bang-stripped expression (the whole of it when no colon
occurs). -/
def varPathOf (var : LC) : LC :=
  match splitFirst ':' (varStripBang var) with
  | some (p, _) => p
  | none => varStripBang var

/-- The escaper part of a variable expression: everything after the first
colon of the bang-stripped expression, when a colon occurs. -/
def varEscOf (var : LC) : Option LC :=
  (splitFirst ':' (varStripBang var)).map Prod.snd

lemma splitFirst_cons_none {sep c : Char} {t : LC}
    (h : splitFirst sep (c :: t) = none) : splitFirst sep t = none := by
  by_cases hc : c = sep
  · simp [splitFirst, hc] at h
  · simp only [splitFirst, if_neg hc] at h
    cases hs : splitFirst sep t with
    | none => rfl
    | some ab => rw [hs] at h; cases ab; simp at h

lemma splitFirst_append_none {sep : Char} {p : LC} (e : LC)
    (h : splitFirst sep p = none) :
    splitFirst sep (p ++ sep :: e) = some (p, e) := by
  induction p with
  | nil => simp [splitFirst]
  | cons c t ih =>
    by_cases hc : c = sep
    · simp [splitFirst, hc] at h
    · have ht : splitFirst sep t = none := splitFirst_cons_none h
      show splitFirst sep (c :: (t ++ sep :: e)) = some (c :: t, e)
      simp only [splitFirst, if_neg hc]
      rw [ih ht]

lemma finish_unknown_escaper (sz : SZ) (inv : Bool) (esc p : LC)
    (s : SpecialsT) (pr : Value) (n : LC)
    (h1 : esc ≠ kText) (h2 : esc ≠ kHtml) (h3 : esc ≠ kPprint) :
    _ExpandVariableFinish sz inv (some esc) p s pr n
      = _ExpandVariableFinish sz inv none p s pr n := by
  unfold _ExpandVariableFinish
  cases _ExpandValue p s pr n (.str []) with
  | error e => rfl
  | ok v0 => simp [if_neg h1, if_neg h2, if_neg h3]

lemma core_unknown_escaper (sz : SZ) (inv : Bool) (p esc : LC)
    (s : SpecialsT) (pr : Value) (n : LC)
    (hp : splitFirst ':' p = none)
    (h1 : esc ≠ kText) (h2 : esc ≠ kHtml) (h3 : esc ≠ kPprint) :
    _ExpandVariableCore sz inv (p ++ ':' :: esc) s pr n
      = _ExpandVariableCore sz inv p s pr n := by
  unfold _ExpandVariableCore
  rw [splitFirst_append_none esc hp, hp]
  exact finish_unknown_escaper sz inv esc p s pr n h1 h2 h3

lemma kStarThis_head : kStarThis.head? = some '*' := rfl

/-- The int() call of _GetValue cannot fail on this index: either the
index is not isdigit-true (so int is never evaluated), or it consists of
decimal digits only. -/
def indexIntSafe (l : LC) : Bool := !(isDigits l) || (intOfDecimal l).isSome

lemma getValue_ok (collection : Value) (index : LC) (default : Value)
    (h : indexIntSafe index = true) :
    ∃ v, _GetValue collection index default = .ok v := by
  have hiv : isDigits index = true → (intOfDecimal index).isSome = true := by
    intro hd
    unfold indexIntSafe at h
    rw [hd] at h
    simpa using h
  cases collection with
  | map pairs =>
    cases hl : pairs.lookup index with
    | some v => exact ⟨v, by simp [_GetValue, hl]⟩
    | none => exact ⟨default, by simp [_GetValue, hl]⟩
  | seq elems =>
    unfold _GetValue
    dsimp only
    by_cases hd : isDigits index = true
    · rw [if_pos hd]
      cases hi : intOfDecimal index with
      | none => rw [hi] at hiv; simpa using hiv hd
      | some nv =>
        simp only [hi]
        by_cases hb : nv < elems.length
        · exact ⟨_, by rw [if_pos hb]⟩
        · exact ⟨default, by rw [if_neg hb]⟩
    · rw [if_neg hd]
      exact ⟨default, rfl⟩
  | str s =>
    unfold _GetValue
    dsimp only
    by_cases hd : isDigits index = true
    · rw [if_pos hd]
      cases hi : intOfDecimal index with
      | none => rw [hi] at hiv; simpa using hiv hd
      | some nv =>
        simp only [hi]
        by_cases hb : nv < s.length
        · exact ⟨_, by rw [if_pos hb]⟩
        · exact ⟨default, by rw [if_neg hb]⟩
    · rw [if_neg hd]
      exact ⟨default, rfl⟩
  | null => exact ⟨default, rfl⟩
  | bool b => exact ⟨default, rfl⟩
  | num n => exact ⟨default, rfl⟩

lemma expandValueLoop_ok (specials : SpecialsT) (params default : Value) :
    ∀ (segs : List LC) (value : Value),
      (∀ seg ∈ segs, seg.head? ≠ some '*' ∧ indexIntSafe seg = true) →
      ∃ v, _ExpandValueLoop specials params default segs value = .ok v := by
  intro segs
  induction segs with
  | nil => exact fun value _ => ⟨value, rfl⟩
  | cons seg rest ih =>
    intro value h
    obtain ⟨hseg, hsafe⟩ := h seg (List.mem_cons_self seg rest)
    have hns : seg ≠ kStarThis := by
      intro hq
      exact hseg (hq ▸ kStarThis_head)
    have hrest : ∀ s2 ∈ rest, s2.head? ≠ some '*' ∧ indexIntSafe s2 = true :=
      fun s2 hs2 => h s2 (List.mem_cons_of_mem seg hs2)
    simp only [_ExpandValueLoop, if_neg hns, if_neg hseg]
    obtain ⟨v2, hv2⟩ := getValue_ok value seg default hsafe
    rw [hv2]
    exact ih v2 hrest

lemma expandValue_ok (p : LC) (specials : SpecialsT) (params : Value)
    (name : LC) (default : Value)
    (hstar : ∀ seg ∈ splitOnChar '.' p, seg.head? ≠ some '*' ∧ indexIntSafe seg = true) :
    ∃ v, _ExpandValue p specials params name default = .ok v := by
  unfold _ExpandValue
  by_cases h1 : p = kKey
  · exact ⟨.str name, by rw [if_pos h1]⟩
  · by_cases h2 : p = kThis
    · exact ⟨params, by rw [if_neg h1, if_pos h2]⟩
    · rw [if_neg h1, if_neg h2]
      exact expandValueLoop_ok specials params default (splitOnChar '.' p) _ hstar

lemma finish_ok (sz : SZ) (inv : Bool) (escName : Option LC) (p : LC)
    (specials : SpecialsT) (params : Value) (name : LC)
    (hesc : escName ≠ some kPprint)
    (hstar : ∀ seg ∈ splitOnChar '.' p, seg.head? ≠ some '*' ∧ indexIntSafe seg = true) :
    ∃ v, _ExpandVariableFinish sz inv escName p specials params name = .ok v := by
  unfold _ExpandVariableFinish
  obtain ⟨v0, hv⟩ := expandValue_ok p specials params name (.str []) hstar
  simp only [hv]
  cases escName with
  | none => exact ⟨_, rfl⟩
  | some esc =>
    dsimp only
    have he : esc ≠ kPprint := fun h => hesc (by rw [h])
    by_cases he1 : esc = kText
    · rw [if_pos he1]
      exact ⟨_, rfl⟩
    · by_cases he2 : esc = kHtml
      · rw [if_neg he1, if_pos he2]
        exact ⟨_, rfl⟩
      · rw [if_neg he1, if_neg he2, if_neg he]
        exact ⟨_, rfl⟩

lemma core_ok (sz : SZ) (inv : Bool) (var1 : LC)
    (specials : SpecialsT) (params : Value) (name : LC)
    (hesc : (splitFirst ':' var1).map Prod.snd ≠ some kPprint)
    (hstar : ∀ seg ∈ splitOnChar '.'
        (match splitFirst ':' var1 with | some (p, _) => p | none => var1),
      seg.head? ≠ some '*' ∧ indexIntSafe seg = true) :
    ∃ v, _ExpandVariableCore sz inv var1 specials params name = .ok v := by
  unfold _ExpandVariableCore
  cases hs : splitFirst ':' var1 with
  | none =>
    rw [hs] at hstar
    exact finish_ok sz inv none var1 specials params name (by simp) hstar
  | some pe =>
    obtain ⟨p, e⟩ := pe
    rw [hs] at hstar hesc
    simp only [Option.map_some'] at hesc
    exact finish_ok sz inv (some e) p specials params name hesc hstar

/-- Whether an event is the opening of a resource handle. -/
def isOpenedE : Event → Bool
  | .opened _ => true
  | _ => false

/-- Whether an event is the closing of a resource handle. -/
def isClosedE : Event → Bool
  | .closed _ => true
  | _ => false

/-- Number of handle-open events in a trace. -/
def openedCount (w : List Event) : Nat := w.countP isOpenedE

/-- Number of handle-close events in a trace. -/
def closedCount (w : List Event) : Nat := w.countP isClosedE

/-- A trace is balanced when it closes as many handles as it opens. -/
def BalancedTr (w : List Event) : Prop := openedCount w = closedCount w

lemma balTr_nil : BalancedTr [] := rfl

lemma balTr_append {a b : List Event} (ha : BalancedTr a) (hb : BalancedTr b) :
    BalancedTr (a ++ b) := by
  unfold BalancedTr openedCount closedCount at *
  rw [List.countP_append, List.countP_append, ha, hb]

lemma balTr_log_cons {m : LC} {w : List Event} (hw : BalancedTr w) :
    BalancedTr (.log m :: w) := by
  unfold BalancedTr openedCount closedCount at *
  rw [List.countP_cons, List.countP_cons, hw]
  simp [isOpenedE, isClosedE]

lemma balTr_handle_cons {f g : LC} {w : List Event} (hw : BalancedTr w) :
    BalancedTr (.opened f :: .closed g :: w) := by
  unfold BalancedTr openedCount closedCount at *
  simp only [List.countP_cons, hw, isOpenedE, isClosedE]
  omega

lemma balTr_seqE {α β : Type} {x : EResult α} {f : α → EResult β}
    (hx : BalancedTr x.2) (hf : ∀ a, BalancedTr (f a).2) :
    BalancedTr (seqE x f).2 := by
  obtain ⟨e, w⟩ := x
  cases e with
  | error err => exact hx
  | ok a => exact balTr_append hx (hf a)

lemma balTr_pureE {α : Type} (a : α) : BalancedTr (pureE a).2 := rfl

lemma balTr_exceptE {α : Type} (x : Except Err α) : BalancedTr (exceptE x).2 := rfl

/-- Every trace produced by the expansion functions is balanced: an include
opens its resource handle and closes it on every path (the try/finally of
the source), and nothing else touches handles. Proved for all seven
mutually recursive functions at once by induction on the fuel. -/
lemma balancedTr_all (fs : FS) (sz : SZ) : ∀ fuel : Nat,
    (∀ t s p n, BalancedTr (ExpandTemplate fs sz fuel t s p n).2)
    ∧ (∀ t s p n, BalancedTr (_ExpandBlocks fs sz fuel t s p n).2)
    ∧ (∀ tag block s p n, BalancedTr (_ExpandBlock fs sz fuel tag block s p n).2)
    ∧ (∀ fn tpl s p n, BalancedTr (_ExpandInclude fs sz fuel fn tpl s p n).2)
    ∧ (∀ tag tpl s v, BalancedTr (_ExpandFor fs sz fuel tag tpl s v).2)
    ∧ (∀ tpl s pairs keys, BalancedTr (_ExpandForKeys fs sz fuel tpl s pairs keys).2)
    ∧ (∀ tpl s elems i, BalancedTr (_ExpandForSeq fs sz fuel tpl s elems i).2) := by
  intro fuel
  induction fuel with
  | zero =>
    exact ⟨fun _ _ _ _ => balTr_nil, fun _ _ _ _ => balTr_nil,
           fun _ _ _ _ _ => balTr_nil, fun _ _ _ _ _ => balTr_nil,
           fun _ _ _ _ => balTr_nil, fun _ _ _ _ => balTr_nil,
           fun _ _ _ _ => balTr_nil⟩
  | succ fuel ih =>
    obtain ⟨ihE, ihB, ihBlk, ihInc, ihFor, ihKeys, ihSeq⟩ := ih
    refine ⟨?_, ?_, ?_, ?_, ?_, ?_, ?_⟩
    · intro t s p n
      exact balTr_seqE (ihB t s p n) (fun t1 => balTr_exceptE _)
    · intro rest s p n
      simp only [_ExpandBlocks]
      cases hf : _FindTag rest openB closeB with
      | none => exact balTr_nil
      | some r =>
        obtain ⟨tag, beforeTag, afterTag⟩ := r
        dsimp only
        cases he : strFindFrom (endTagOf tag) rest afterTag with
        | none => exact balTr_nil
        | some beforeEnd =>
          exact balTr_seqE (ihBlk _ _ s p n)
            (fun expanded => balTr_seqE (ihB _ s p n)
              (fun restOut => balTr_pureE _))
    · intro tag block s p n
      simp only [_ExpandBlock]
      cases hs : splitFirst ':' tag with
      | none => exact balTr_nil
      | some tb =>
        obtain ⟨tagType, blockVar⟩ := tb
        dsimp only
        by_cases h1 : tagType = kInclude
        · simp only [if_pos h1]
          exact ihInc _ _ s p n
        · by_cases h2 : tagType = kIf
          · simp only [if_neg h1, if_pos h2]
            cases hv : _ExpandVariable sz blockVar s p n with
            | error e => exact balTr_nil
            | ok v =>
              by_cases ht : truthy v
              · simp only [if_pos ht]
                exact ihE block s p n
              · simp only [if_neg ht]
                exact balTr_nil
          · by_cases h3 : tagType = kFor
            · simp only [if_neg h1, if_neg h2, if_pos h3]
              cases hv : _ExpandVariable sz blockVar s p n with
              | error e => exact balTr_nil
              | ok v => exact ihFor tag block s v
            · simp only [if_neg h1, if_neg h2, if_neg h3]
              exact balTr_log_cons balTr_nil
    · intro fn tpl s p n
      simp only [_ExpandInclude]
      cases hfs : fs (fnameOf fn) with
      | some contents => exact balTr_handle_cons (ihE contents s p n)
      | none => exact balTr_log_cons (ihE tpl s p n)
    · intro tag tpl s v
      simp only [_ExpandFor]
      cases v with
      | map pairs => exact ihKeys tpl s pairs (pairs.map Prod.fst)
      | seq elems => exact ihSeq tpl s elems 0
      | str s2 => exact ihSeq tpl s _ 0
      | null => exact balTr_log_cons balTr_nil
      | bool b => exact balTr_log_cons balTr_nil
      | num k => exact balTr_log_cons balTr_nil
    · intro tpl s pairs keys
      simp only [_ExpandForKeys]
      cases keys with
      | nil => exact balTr_nil
      | cons k ks =>
        dsimp only
        cases hl : pairs.lookup k with
        | none => exact balTr_nil
        | some v =>
          exact balTr_seqE (ihE tpl s v k)
            (fun s1 => balTr_seqE (ihKeys tpl s pairs ks)
              (fun s2 => balTr_pureE _))
    · intro tpl s elems i
      simp only [_ExpandForSeq]
      cases elems with
      | nil => exact balTr_nil
      | cons x xs =>
        dsimp only
        exact balTr_seqE (ihE tpl s x (natToString i))
          (fun s1 => balTr_seqE (ihSeq tpl s xs (i + 1))
            (fun s2 => balTr_pureE _))

/-- A specials dict holding the four keys required by claim C1, with an
empty request-parameter set. -/
def c1specials : SpecialsT :=
  [(("_db").toList, .map []), (("_cookie").toList, .map []),
   (("_profile").toList, .map []), (("_params").toList, .map [])]

/-- Claim C1 counterexample: with a specials dict that does contain _db,
_cookie, _profile and _params, variable expansion can raise. First,
resolving the expression star-foo (indirection through the absent request
parameter foo) raises IndexError rather than degrading to the
empty-string default: the lookup in _params yields the empty-string
default, which Python treats as a Sequence, and indexing its first
element fails. Second, resolving the star-free expression x dot
superscript-two over a list-valued x raises ValueError: the superscript
passes str.isdigit() but int() rejects it inside _GetValue. -/
theorem c1_counterexample :
    ((c1specials.lookup (("_db").toList)).isSome = true
      ∧ (c1specials.lookup (("_cookie").toList)).isSome = true
      ∧ (c1specials.lookup (("_profile").toList)).isSome = true
      ∧ (c1specials.lookup (("_params").toList)).isSome = true)
    ∧ _ExpandVariable id (("*foo").toList) c1specials (.map []) [] = .error .indexError
    ∧ _ExpandVariable id ['x', '.', Char.ofNat 178] c1specials
        (.map [(("x").toList, .seq [.num 5])]) [] = .error .valueError :=
  ⟨⟨rfl, rfl, rfl, rfl⟩, rfl, rfl⟩

/-- Claim C1 (amended): for every variable expression whose dotted path
contains no segment starting with the star indirection marker, none whose
use as an index can make int() fail (an isdigit-true segment containing a
non-decimal digit character such as superscript two raises ValueError on
a sequence), and whose escaper is not pprint, resolution never raises,
for every context: missing keys, out-of-range indices and wrong-typed
values all degrade to the empty-string default inside _GetValue, so the
resolver returns a value. -/
theorem c1_no_exception_without_star (sz : SZ) (var : LC) (specials : SpecialsT)
    (params : Value) (name : LC)
    (hesc : varEscOf var ≠ some kPprint)
    (hstar : ∀ seg ∈ splitOnChar '.' (varPathOf var),
      seg.head? ≠ some '*' ∧ indexIntSafe seg = true) :
    ∃ v, _ExpandVariable sz var specials params name = .ok v := by
  unfold _ExpandVariable
  by_cases h1 : var.head? = some '#'
  · rw [if_pos h1]
    exact ⟨.str [], rfl⟩
  · rw [if_neg h1]
    by_cases h2 : var.head? = some '!'
    · rw [if_pos h2]
      have hsb : varStripBang var = var.drop 1 := by
        unfold varStripBang
        rw [if_pos h2]
      unfold varEscOf at hesc
      unfold varPathOf at hstar
      rw [hsb] at hesc hstar
      exact core_ok sz true (var.drop 1) specials params name hesc hstar
    · rw [if_neg h2]
      have hsb : varStripBang var = var := by
        unfold varStripBang
        rw [if_neg h2]
      unfold varEscOf at hesc
      unfold varPathOf at hstar
      rw [hsb] at hesc hstar
      exact core_ok sz false var specials params name hesc hstar

/-- Witness for claim C1 (amended) at the star-free, decimal-safe
expression a.b in the claim context: the hypotheses hold and the resolver
returns a value. -/
theorem c1_no_exception_without_star_witness :
    (varEscOf (("a.b").toList) ≠ some kPprint
      ∧ ∀ seg ∈ splitOnChar '.' (varPathOf (("a.b").toList)),
          seg.head? ≠ some '*' ∧ indexIntSafe seg = true)
    ∧ ∃ v, _ExpandVariable id (("a.b").toList) c1specials (.map []) [] = .ok v :=
  ⟨⟨by decide, by decide⟩,
   c1_no_exception_without_star id (("a.b").toList) c1specials (.map []) []
     (by decide) (by decide)⟩

/-- Claim C2: for every template, context, name and fuel, ExpandTemplate is
exactly the two-pass composition: the block pass runs over the whole input
first and the variable pass runs once over its result. -/
theorem c2_two_pass (fs : FS) (sz : SZ) (fuel : Nat) (t : LC) (s : SpecialsT)
    (p : Value) (n : LC) :
    ExpandTemplate fs sz (fuel + 1) t s p n
      = seqE (_ExpandBlocks fs sz fuel t s p n)
          (fun t1 => exceptE (_ExpandVariables sz fuel t1 s p n)) := rfl

/-- Claim C3: when the include target cannot be read, the include block
logs the missing-filename diagnostic and splices the full recursive
expansion of its own body with the same context and name, surfacing no
read error; and on every path of every include (success or failure) the
trace closes exactly as many resource handles as it opens. -/
theorem c3_include_fallback (fs : FS) (sz : SZ) (fuel : Nat)
    (filename template : LC) (s : SpecialsT) (p : Value) (n : LC)
    (hio : fs (fnameOf filename) = none) :
    _ExpandInclude fs sz (fuel + 1) filename template s p n
        = ((ExpandTemplate fs sz fuel template s p n).1,
           .log (missingMsg filename) :: (ExpandTemplate fs sz fuel template s p n).2)
      ∧ (∀ (fs2 : FS) (sz2 : SZ) (fuel2 : Nat) (fn2 tpl2 : LC) (s2 : SpecialsT)
           (p2 : Value) (n2 : LC),
          openedCount (_ExpandInclude fs2 sz2 fuel2 fn2 tpl2 s2 p2 n2).2
            = closedCount (_ExpandInclude fs2 sz2 fuel2 fn2 tpl2 s2 p2 n2).2) := by
  constructor
  · simp only [_ExpandInclude, hio]
  · intro fs2 sz2 fuel2 fn2 tpl2 s2 p2 n2
    exact (balancedTr_all fs2 sz2 fuel2).2.2.2.1 fn2 tpl2 s2 p2 n2

/-- Witness for claim C3: a concrete unreadable include target. -/
theorem c3_include_fallback_witness :
    fsNone (fnameOf (("nope").toList)) = none
    ∧ (_ExpandInclude fsNone id 3 (("nope").toList) (("fb").toList) [] (.map []) []
        = ((ExpandTemplate fsNone id 2 (("fb").toList) [] (.map []) []).1,
           .log (missingMsg (("nope").toList))
             :: (ExpandTemplate fsNone id 2 (("fb").toList) [] (.map []) []).2)
      ∧ (∀ (fs2 : FS) (sz2 : SZ) (fuel2 : Nat) (fn2 tpl2 : LC) (s2 : SpecialsT)
           (p2 : Value) (n2 : LC),
          openedCount (_ExpandInclude fs2 sz2 fuel2 fn2 tpl2 s2 p2 n2).2
            = closedCount (_ExpandInclude fs2 sz2 fuel2 fn2 tpl2 s2 p2 n2).2)) :=
  ⟨rfl, c3_include_fallback fsNone id 2 (("nope").toList) (("fb").toList) [] (.map []) [] rfl⟩

/-- Claim C4: an if block whose argument resolves to a value expands to the
full recursive expansion of its body when the value is truthy and to the
empty string when it is falsy; concretely, the template a[[if:x]]b[[/if:x]]c
yields abc when x is true and ac when x is false or absent. -/
theorem c4_if_block :
    (∀ (fs : FS) (sz : SZ) (fuel : Nat) (expr block : LC) (s : SpecialsT)
       (p : Value) (n : LC) (v : Value),
       _ExpandVariable sz expr s p n = .ok v →
       _ExpandBlock fs sz (fuel + 1) (kIf ++ ':' :: expr) block s p n
         = if truthy v then ExpandTemplate fs sz fuel block s p n
           else ((.ok [], []) : EResult LC))
    ∧ ExpandTemplate fsNone id 6 (("a[[if:x]]b[[/if:x]]c").toList) []
        (.map [(("x").toList, .bool true)]) [] = (.ok (("abc").toList), [])
    ∧ ExpandTemplate fsNone id 6 (("a[[if:x]]b[[/if:x]]c").toList) []
        (.map [(("x").toList, .bool false)]) [] = (.ok (("ac").toList), [])
    ∧ ExpandTemplate fsNone id 6 (("a[[if:x]]b[[/if:x]]c").toList) []
        (.map []) [] = (.ok (("ac").toList), []) := by
  refine ⟨?_, rfl, rfl, rfl⟩
  intro fs sz fuel expr block s p n v hv
  simp only [_ExpandBlock]
  rw [splitFirst_append_none expr (by decide : splitFirst ':' kIf = none)]
  dsimp only
  rw [if_neg (by decide : ¬(kIf = kInclude)), if_pos (rfl : kIf = kIf), hv]

/-- Witness for claim C4 at the expression x bound to true. -/
theorem c4_if_block_witness :
    _ExpandVariable id (("x").toList) [] (.map [(("x").toList, .bool true)]) []
      = .ok (.bool true)
    ∧ _ExpandBlock fsNone id 3 (kIf ++ ':' :: (("x").toList)) (("b").toList) []
        (.map [(("x").toList, .bool true)]) []
        = if truthy (.bool true)
          then ExpandTemplate fsNone id 2 (("b").toList) [] (.map [(("x").toList, .bool true)]) []
          else ((.ok [], []) : EResult LC) :=
  ⟨rfl, c4_if_block.1 fsNone id 2 (("x").toList) (("b").toList) []
    (.map [(("x").toList, .bool true)]) [] (.bool true) rfl⟩

/-- Whether a value is outside both branches the for dispatch iterates:
None, a Boolean or a Number (strings and containers are iterable there). -/
def isScalarNonIterable : Value → Bool
  | .null => true
  | .bool _ => true
  | .num _ => true
  | _ => false

/-- Claim C5 counterexample: a for block over the String ab does not
contribute the empty string with a diagnostic; Python strings are
Sequences, so the block body is expanded once per character (yielding xx
for the body x) and nothing is logged. -/
theorem c5_counterexample :
    _ExpandFor fsNone id 6 (("for:s").toList) (("x").toList) [] (.str (("ab").toList))
      = (.ok (("xx").toList), [])
    ∧ (("xx").toList ≠ ([] : LC)) := ⟨rfl, by decide⟩

/-- Claim C5 (amended): a for block over a value that is neither a Mapping
nor a Sequence contributes the empty string and logs the invalid-type
diagnostic; but only Null, Booleans and Numbers are such values, since a
String counts as a Sequence and is iterated character-wise. -/
theorem c5_scalar_for (fs : FS) (sz : SZ) (fuel : Nat) (tag tpl : LC)
    (s : SpecialsT) (v : Value) (hv : isScalarNonIterable v = true) :
    _ExpandFor fs sz (fuel + 1) tag tpl s v
      = (.ok [], [.log (invalidTypeMsg tag)]) := by
  cases v with
  | null => rfl
  | bool b => rfl
  | num k => rfl
  | str s2 => simp [isScalarNonIterable] at hv
  | map pairs => simp [isScalarNonIterable] at hv
  | seq elems => simp [isScalarNonIterable] at hv

/-- Witness for claim C5 (amended) at the value None. -/
theorem c5_scalar_for_witness :
    isScalarNonIterable .null = true
    ∧ _ExpandFor fsNone id 1 (("for:x").toList) (("y").toList) [] .null
        = (.ok [], [.log (invalidTypeMsg (("for:x").toList))]) :=
  ⟨rfl, c5_scalar_for fsNone id 0 (("for:x").toList) (("y").toList) [] .null rfl⟩

/-- Claim C6: when the first block open tag found in the remaining input
has no matching close tag (the exact end-tag string does not occur at or
after the position just past the open tag), the block pass stops and
returns the remaining input verbatim, with no block expansion and no
events. -/
theorem c6_unmatched_close (fs : FS) (sz : SZ) (fuel : Nat) (rest : LC)
    (s : SpecialsT) (p : Value) (n : LC) (tag : LC) (beforeTag afterTag : Nat)
    (hf : _FindTag rest openB closeB = some (tag, beforeTag, afterTag))
    (he : strFindFrom (endTagOf tag) rest afterTag = none) :
    _ExpandBlocks fs sz (fuel + 1) rest s p n = (.ok rest, []) := by
  simp only [_ExpandBlocks, hf]
  simp only [he]

/-- Witness for claim C6: the template x[[if:a]]y whose if block is never
closed is returned verbatim by the block pass. -/
theorem c6_unmatched_close_witness :
    _FindTag (("x[[if:a]]y").toList) openB closeB = some ((("if:a").toList), 1, 9)
    ∧ strFindFrom (endTagOf (("if:a").toList)) (("x[[if:a]]y").toList) 9 = none
    ∧ _ExpandBlocks fsNone id 1 (("x[[if:a]]y").toList) [] (.map []) []
        = (.ok (("x[[if:a]]y").toList), []) :=
  ⟨rfl, rfl, c6_unmatched_close fsNone id 0 (("x[[if:a]]y").toList) [] (.map []) []
    (("if:a").toList) 1 9 rfl rfl⟩

/-- Claim C7 evaluated on the code: resolving a variable expression with
the pprint escaper does not produce the pre-wrapped escaped debug form;
it raises NameError, because the pprint branch of _ExpandVariable calls
cgi.escape and the cgi module is never imported by gtl.py. -/
theorem c7_pprint_name_error :
    _ExpandVariable id (("x:pprint").toList) [] (.map [(("x").toList, .num 1)]) []
      = .error .nameError := rfl

/-- Claim C8: a for block over a Mapping iterates the keys in the dict
order: the dispatch hands the key list in order to the key loop, each key
expands the body with params bound to the dict entry for that key and name
bound to the key, and the results are concatenated in that order;
concretely the mapping x to 1, y to 2 yields x=1|y=2| (the body reading
the key and this variables). -/
theorem c8_for_mapping :
    (∀ (fs : FS) (sz : SZ) (fuel : Nat) (tag tpl : LC) (s : SpecialsT)
       (pairs : List (LC × Value)),
        _ExpandFor fs sz (fuel + 1) tag tpl s (.map pairs)
          = _ExpandForKeys fs sz fuel tpl s pairs (pairs.map Prod.fst))
    ∧ (∀ (fs : FS) (sz : SZ) (fuel : Nat) (tpl : LC) (s : SpecialsT)
         (pairs : List (LC × Value)) (k : LC) (ks : List LC) (v : Value),
        pairs.lookup k = some v →
        _ExpandForKeys fs sz (fuel + 1) tpl s pairs (k :: ks)
          = seqE (ExpandTemplate fs sz fuel tpl s v k)
              (fun s1 => seqE (_ExpandForKeys fs sz fuel tpl s pairs ks)
                (fun s2 => pureE (s1 ++ s2))))
    ∧ ExpandTemplate fsNone id 12
        (("[[for:m]]\x7b\x7b_key\x7d\x7d=\x7b\x7b_this\x7d\x7d|[[/for:m]]").toList) []
        (.map [(("m").toList, .map [(("x").toList, .num 1), (("y").toList, .num 2)])]) []
        = (.ok (("x=1|y=2|").toList), []) := by
  refine ⟨fun fs sz fuel tag tpl s pairs => rfl, ?_, rfl⟩
  intro fs sz fuel tpl s pairs k ks v hv
  simp only [_ExpandForKeys]
  rw [hv]

/-- Witness for claim C8 at a one-entry mapping. -/
theorem c8_for_mapping_witness :
    ([((("x").toList : LC), Value.num 1)]).lookup (("x").toList) = some (Value.num 1)
    ∧ _ExpandForKeys fsNone id 3 (("t").toList) [] [((("x").toList), Value.num 1)]
        [(("x").toList)]
        = seqE (ExpandTemplate fsNone id 2 (("t").toList) [] (Value.num 1) (("x").toList))
            (fun s1 =>
              seqE (_ExpandForKeys fsNone id 2 (("t").toList) [] [((("x").toList), Value.num 1)] [])
                (fun s2 => pureE (s1 ++ s2))) :=
  ⟨rfl, c8_for_mapping.2.1 fsNone id 2 (("t").toList) [] [((("x").toList), Value.num 1)]
    (("x").toList) [] (Value.num 1) rfl⟩

/-- Claim C9: a variable expression whose escaper name is none of text,
html and pprint resolves exactly as the same expression with no escaper at
all: the unknown name is silently ignored, no escaping is applied, nothing
is logged (the resolver emits no events by construction) and no extra
error is introduced. -/
theorem c9_unknown_escaper (sz : SZ) (path esc : LC) (s : SpecialsT)
    (p : Value) (n : LC)
    (hp : splitFirst ':' path = none)
    (h1 : esc ≠ kText) (h2 : esc ≠ kHtml) (h3 : esc ≠ kPprint) :
    _ExpandVariable sz (path ++ ':' :: esc) s p n = _ExpandVariable sz path s p n := by
  cases path with
  | nil => exact core_unknown_escaper sz false [] esc s p n hp h1 h2 h3
  | cons c t =>
    by_cases hc1 : c = '#'
    · subst hc1
      rfl
    · by_cases hc2 : c = '!'
      · subst hc2
        exact core_unknown_escaper sz true t esc s p n (splitFirst_cons_none hp) h1 h2 h3
      · have n1 : ¬((((c :: t) ++ ':' :: esc : LC)).head? = some '#') := by
          simp [hc1]
        have n2 : ¬((((c :: t) ++ ':' :: esc : LC)).head? = some '!') := by
          simp [hc2]
        have n3 : ¬(((c :: t : LC)).head? = some '#') := by simp [hc1]
        have n4 : ¬(((c :: t : LC)).head? = some '!') := by simp [hc2]
        unfold _ExpandVariable
        rw [if_neg n1, if_neg n2, if_neg n3, if_neg n4]
        exact core_unknown_escaper sz false (c :: t) esc s p n hp h1 h2 h3

/-- Witness for claim C9 at the expression x with the unknown escaper
weird. -/
theorem c9_unknown_escaper_witness :
    (splitFirst ':' (("x").toList) = none
      ∧ (("weird").toList ≠ kText) ∧ (("weird").toList ≠ kHtml)
      ∧ (("weird").toList ≠ kPprint))
    ∧ _ExpandVariable id ((("x").toList) ++ ':' :: (("weird").toList)) []
        (.map [(("x").toList, .num 7)]) []
        = _ExpandVariable id (("x").toList) [] (.map [(("x").toList, .num 7)]) [] :=
  ⟨⟨rfl, by decide, by decide, by decide⟩,
   c9_unknown_escaper id (("x").toList) (("weird").toList) []
     (.map [(("x").toList, .num 7)]) [] rfl (by decide) (by decide) (by decide)⟩

/-- Claim C10: a properly closed block whose tag has no colon makes
expansion raise: the two-way unpacking of the colon split fails with
ValueError inside _ExpandBlock and the exception escapes ExpandTemplate to
the caller (no recoverable invalid-block handling runs). -/
theorem c10_colonless_tag_raises (fs : FS) (sz : SZ) (fuel : Nat)
    (template : LC) (s : SpecialsT) (p : Value) (n : LC) (tag : LC)
    (beforeTag afterTag beforeEnd : Nat)
    (hf : _FindTag template openB closeB = some (tag, beforeTag, afterTag))
    (he : strFindFrom (endTagOf tag) template afterTag = some beforeEnd)
    (hc : splitFirst ':' tag = none) :
    ExpandTemplate fs sz (fuel + 3) template s p n = (.error .valueError, []) := by
  have hblk : _ExpandBlock fs sz (fuel + 1) tag (sliceL template afterTag beforeEnd) s p n
      = (.error .valueError, []) := by
    simp only [_ExpandBlock, hc]
  have hblocks : _ExpandBlocks fs sz (fuel + 2) template s p n
      = (.error .valueError, []) := by
    simp only [_ExpandBlocks, hf]
    simp only [he]
    rw [hblk]
    rfl
  show seqE (_ExpandBlocks fs sz (fuel + 2) template s p n)
      (fun t1 => exceptE (_ExpandVariables sz (fuel + 2) t1 s p n))
    = (.error .valueError, [])
  rw [hblocks]
  rfl

/-- Witness for claim C10 at the template with the colon-free tag foo. -/
theorem c10_colonless_tag_raises_witness :
    _FindTag (("[[foo]]body[[/foo]]").toList) openB closeB
      = some ((("foo").toList), 0, 7)
    ∧ strFindFrom (endTagOf (("foo").toList)) (("[[foo]]body[[/foo]]").toList) 7
      = some 11
    ∧ splitFirst ':' (("foo").toList) = none
    ∧ ExpandTemplate fsNone id 3 (("[[foo]]body[[/foo]]").toList) [] (.map []) []
        = (.error .valueError, []) :=
  ⟨rfl, rfl, rfl, c10_colonless_tag_raises fsNone id 0 (("[[foo]]body[[/foo]]").toList)
    [] (.map []) [] (("foo").toList) 0 7 11 rfl rfl rfl⟩
